import Mathlib

/-!
Verification of the student-list page of CampusFIX
(`src/frontend_v3/src/pages/Students.jsx`), shallowly embedded in Lean.

The page is a single React component holding four pieces of state
(`students`, `loading`, `searchTerm`, `toast`) plus the browser timer
queue.  We embed that state as the structure `PageState`, timers as an
explicit list of scheduled, not-yet-cancelled `Timer`s (time is measured
in milliseconds, ids allocated from `nextTimerId`, starting at 1 as
browser timer ids are positive), and every state-changing operation of
the component as a pure function on `PageState`.  Asynchronous network
calls are embedded by passing their outcome (`Except Unit _`) as an
argument and returning the list of issued `ApiCall`s alongside the new
state.  `toastLog` accumulates every notification ever emitted, so that
"an error notification is emitted" is expressible as a statement about
the log.

JavaScript string operations used by the component (`toLowerCase`,
`trim`, `includes`) are embedded as `jsToLower`, `jsTrim`, `jsIncludes`
over the character lists of Lean strings; record fields that may be
absent (`full_name`, `enrollment_no`, `credit_score`, ...) are embedded
as `Option`s, with JavaScript's `x || ""` / `x || 0` falsy-defaulting
modelled explicitly.
-/

namespace CampusFix

/-- Notification kind: the component only ever shows `success` or `error`. -/
inductive ToastType where
  | success
  | error
deriving DecidableEq

/-- A student record as consumed by the page (`GET /users/all` rows).
Fields the JSX reads defensively are `Option`s; `none` covers JSON
`null`/absent. -/
structure Student where
  id : Nat
  full_name : Option String
  email : Option String
  enrollment_no : Option String
  credit_score : Option Int
  hostel : Option String
  room_no : Option Nat
  requested_hostel : Option String
deriving DecidableEq

/-- A scheduled, not-yet-cancelled `setTimeout` timer. -/
structure Timer where
  id : Nat
  fireAt : Nat
deriving DecidableEq

/-- The toast value stored by `setToast`: `\x7b type, message, _id \x7d`
in the source; `timerId` embeds the `_id` field. -/
structure Toast where
  type : ToastType
  message : String
  timerId : Nat
deriving DecidableEq

/-- The component's state, plus the browser timer queue and the
notification log (a history of every `showToast` call, used to state
"a notification is emitted"). -/
structure PageState where
  now : Nat
  students : List Student
  loading : Bool
  searchTerm : String
  toast : Option Toast
  timers : List Timer
  nextTimerId : Nat
  toastLog : List (ToastType × String)
deriving DecidableEq

/-- A network request issued by the component. -/
inductive ApiCall where
  | get (path : String)
  | post (path : String) (body : String)
deriving DecidableEq

/-- State at mount: `useState([])`, `useState(true)`, `useState("")`,
`useState(null)`; no timers pending; browser timer ids start at 1. -/
def initState : PageState :=
  { now := 0
    students := []
    loading := true
    searchTerm := ""
    toast := none
    timers := []
    nextTimerId := 1
    toastLog := [] }

/-! ### JavaScript string operations -/

/-- JS `String.prototype.toLowerCase` (ASCII case mapping). -/
def jsToLower (s : String) : String := ⟨s.data.map Char.toLower⟩

/-- Drop whitespace from both ends of a character list. -/
def trimChars (l : List Char) : List Char :=
  ((l.dropWhile Char.isWhitespace).reverse.dropWhile Char.isWhitespace).reverse

/-- JS `String.prototype.trim`. -/
def jsTrim (s : String) : String := ⟨trimChars s.data⟩

/-- JS `hay.includes(needle)`: contiguous-substring test. -/
def jsIncludes (hay needle : String) : Bool :=
  decide (needle.data <:+: hay.data)

/-! ### The filter (`filteredStudents` memo, Students.jsx lines 75-83) -/

/-- The predicate of the `students.filter` callback:
`(s.full_name || "").toLowerCase().includes(term) ||
 (s.enrollment_no || "").toLowerCase().includes(term)`.
JS `x || ""` yields `""` for `null`/`undefined`/`""`, which on
`Option String` is exactly `Option.getD _ ""`. -/
def studentMatches (term : String) (s : Student) : Bool :=
  jsIncludes (jsToLower (s.full_name.getD "")) term ||
  jsIncludes (jsToLower (s.enrollment_no.getD "")) term

/-- The `filteredStudents` memo:
`const term = searchTerm.toLowerCase().trim(); if (!term) return students;
 return students.filter(...)`. -/
def filteredStudents (students : List Student) (searchTerm : String) : List Student :=
  if jsTrim (jsToLower searchTerm) = "" then students
  else students.filter (studentMatches (jsTrim (jsToLower searchTerm)))

/-! ### The toast system (`showToast`, cleanup effect, timer callback) -/

/-- Auto-dismiss delay passed to `setTimeout` (milliseconds). -/
def toastDelayMs : Nat := 3000

/-- `showToast(type, message)`:
`setToast(prev => \x7b if (prev?._id) clearTimeout(prev._id);
 const id = setTimeout(() => setToast(null), 3000);
 return \x7b type, message, _id: id \x7d \x7d)`.
`clearTimeout` removes the timer from the pending queue (a no-op if it
already fired); `setTimeout` schedules a fresh timer `toastDelayMs`
milliseconds from now.  The emitted notification is appended to
`toastLog`. -/
def showToast (ty : ToastType) (msg : String) (st : PageState) : PageState :=
  let st1 :=
    match st.toast with
    | some prev =>
        if prev.timerId ≠ 0 then
          { st with timers := st.timers.filter fun tm => tm.id ≠ prev.timerId }
        else st
    | none => st
  { st1 with
      toast := some ⟨ty, msg, st1.nextTimerId⟩
      timers := st1.timers ++ [⟨st1.nextTimerId, st1.now + toastDelayMs⟩]
      nextTimerId := st1.nextTimerId + 1
      toastLog := st1.toastLog ++ [(ty, msg)] }

/-- Firing of a scheduled toast timer: only a still-pending timer can
fire; its callback is `() => setToast(null)`, and a fired timer leaves
the pending queue. -/
def fireTimer (tid : Nat) (st : PageState) : PageState :=
  if st.timers.any fun tm => tm.id = tid then
    { st with
        toast := none
        timers := st.timers.filter fun tm => tm.id ≠ tid }
  else st

/-- The unmount cleanup effect:
`setToast(current => \x7b if (current?._id) clearTimeout(current._id);
 return null \x7d)`. -/
def toastCleanup (st : PageState) : PageState :=
  match st.toast with
  | some cur =>
      if cur.timerId ≠ 0 then
        { st with
            toast := none
            timers := st.timers.filter fun tm => tm.id ≠ cur.timerId }
      else { st with toast := none }
  | none => { st with toast := none }

/-! ### Data loading (`loadStudents`, the initial-load effect) -/

/-- The part of `loadStudents` that runs once the awaited
`api.get('/users/all')` resolves: on success `setStudents(res.data)`,
on failure `showToast('error', ...)`, and `finally setLoading(false)`.
`isMounted` records whether the component is still mounted when the
response arrives; the source of `loadStudents` consults no liveness
flag, so the updates below run regardless of it. -/
def loadStudentsK (isMounted : Bool) (outcome : Except Unit (List Student))
    (st : PageState) : PageState :=
  let st1 :=
    match outcome with
    | .ok data => { st with students := data }
    | .error _ => showToast .error "Failed to connect to database" st
  { st1 with loading := false }

/-- `loadStudents` (the manual refresh): `setLoading(true)`, issue
`GET /users/all`, then run the continuation on the outcome. -/
def loadStudents (outcome : Except Unit (List Student)) (st : PageState) :
    PageState × List ApiCall :=
  (loadStudentsK true outcome { st with loading := true }, [ApiCall.get "/users/all"])

/-- The part of the initial-load effect (`run`) after its `await`:
identical to `loadStudentsK` except that every state update is guarded
by the `isMounted` flag captured before the call. -/
def initialLoadK (isMounted : Bool) (outcome : Except Unit (List Student))
    (st : PageState) : PageState :=
  let st1 :=
    match outcome with
    | .ok data => if isMounted then { st with students := data } else st
    | .error _ =>
        if isMounted then showToast .error "Failed to connect to database" st else st
  if isMounted then { st1 with loading := false } else st1

/-! ### Action submission (`handleRequest`) -/

/-- `handleRequest(id, action)`: `await api.post(..., \x7b action \x7d)`;
on success show a success toast and call `loadStudents()` (whose fetch
outcome is `refreshOutcome`); on failure show an error toast. Returns
the new state and the list of issued network calls, in order. -/
def handleRequest (id : Nat) (action : String) (postOutcome : Except Unit Unit)
    (refreshOutcome : Except Unit (List Student)) (st : PageState) :
    PageState × List ApiCall :=
  match postOutcome with
  | .ok _ =>
      let st1 := showToast .success ("Request " ++ action ++ "ed successfully") st
      let r := loadStudents refreshOutcome st1
      (r.1, ApiCall.post ("/users/" ++ toString id ++ "/manage-hostel") action :: r.2)
  | .error _ =>
      (showToast .error "Action failed" st,
       [ApiCall.post ("/users/" ++ toString id ++ "/manage-hostel") action])

/-! ### Trust badge (`getTrustColor`, badge rendering) -/

/-- `getTrustColor(score)`: four color tiers by thresholds. -/
def getTrustColor (score : Int) : String :=
  if score ≥ 10 then "#22c55e"
  else if score ≥ 5 then "#3b82f6"
  else if score ≥ 0 then "#eab308"
  else "#ef4444"

/-- The value the badge renders: `s.credit_score || 0` (JS falsy
default: `0`, `null` and `undefined` all give `0`). -/
def badgeScoreValue (cs : Option Int) : Int :=
  match cs with
  | none => 0
  | some v => if v = 0 then 0 else v

/-- The badge's color: `getTrustColor(s.credit_score || 0)`. -/
def badgeColor (cs : Option Int) : String :=
  getTrustColor (badgeScoreValue cs)

/-- Whether the desktop badge shows the warning icon:
`s.credit_score < 0` — for a missing score, JS `undefined < 0` is
`false`, so only a present, strictly negative score shows it. -/
def badgeShowsWarning (cs : Option Int) : Bool :=
  match cs with
  | none => false
  | some v => decide (v < 0)

/-! ### The toast invariant -/

/-- The pending-timer discipline of the toast system: timer ids are
positive (so the truthiness check `if (prev?._id)` never skips a live
timer), and the pending queue holds exactly the current toast's timer —
in particular at most one dismissal timer is ever pending. -/
def toastInv (st : PageState) : Prop :=
  0 < st.nextTimerId ∧
  match st.toast with
  | some t => t.timerId ≠ 0 ∧ ∃ ft, st.timers = [⟨t.timerId, ft⟩]
  | none => st.timers = []

/-! ### Concrete records used by witnesses -/

/-- The spec's running example: "a student named Ravi Kumar with
enrollment CS101". -/
def ravi : Student :=
  ⟨1, some "Ravi Kumar", some "ravi@campus.in", some "CS101", some 7,
   some "A", some 12, none⟩

/-- A one-element cached list holding `ravi`. -/
def demoList : List Student := [ravi]

/-! ### Projection lemmas for `showToast` -/

theorem showToast_students (ty : ToastType) (msg : String) (st : PageState) :
    (showToast ty msg st).students = st.students := by
  obtain ⟨n, ss, ld, q, t, tm, nid, lg⟩ := st
  cases t with
  | none => rfl
  | some prev => by_cases h : prev.timerId ≠ 0 <;> simp [showToast, h]

theorem showToast_loading (ty : ToastType) (msg : String) (st : PageState) :
    (showToast ty msg st).loading = st.loading := by
  obtain ⟨n, ss, ld, q, t, tm, nid, lg⟩ := st
  cases t with
  | none => rfl
  | some prev => by_cases h : prev.timerId ≠ 0 <;> simp [showToast, h]

theorem showToast_now (ty : ToastType) (msg : String) (st : PageState) :
    (showToast ty msg st).now = st.now := by
  obtain ⟨n, ss, ld, q, t, tm, nid, lg⟩ := st
  cases t with
  | none => rfl
  | some prev => by_cases h : prev.timerId ≠ 0 <;> simp [showToast, h]

theorem showToast_toast (ty : ToastType) (msg : String) (st : PageState) :
    (showToast ty msg st).toast = some ⟨ty, msg, st.nextTimerId⟩ := by
  obtain ⟨n, ss, ld, q, t, tm, nid, lg⟩ := st
  cases t with
  | none => rfl
  | some prev => by_cases h : prev.timerId ≠ 0 <;> simp [showToast, h]

theorem showToast_nextTimerId (ty : ToastType) (msg : String) (st : PageState) :
    (showToast ty msg st).nextTimerId = st.nextTimerId + 1 := by
  obtain ⟨n, ss, ld, q, t, tm, nid, lg⟩ := st
  cases t with
  | none => rfl
  | some prev => by_cases h : prev.timerId ≠ 0 <;> simp [showToast, h]

theorem showToast_toastLog (ty : ToastType) (msg : String) (st : PageState) :
    (showToast ty msg st).toastLog = st.toastLog ++ [(ty, msg)] := by
  obtain ⟨n, ss, ld, q, t, tm, nid, lg⟩ := st
  cases t with
  | none => rfl
  | some prev => by_cases h : prev.timerId ≠ 0 <;> simp [showToast, h]

/-- Under the invariant, `showToast` leaves exactly the fresh timer
pending. -/
theorem showToast_timers (ty : ToastType) (msg : String) (st : PageState)
    (h : toastInv st) :
    (showToast ty msg st).timers = [⟨st.nextTimerId, st.now + toastDelayMs⟩] := by
  obtain ⟨hpos, hrest⟩ := h
  obtain ⟨n, ss, ld, q, t, tm, nid, lg⟩ := st
  cases t with
  | none =>
      have htm : tm = [] := hrest
      simp [showToast, htm]
  | some prev =>
      obtain ⟨hne, ft, htm⟩ := hrest
      dsimp only at htm
      simp [showToast, hne, htm]

/-- `showToast` preserves the pending-timer discipline. -/
theorem toastInv_showToast (ty : ToastType) (msg : String) (st : PageState)
    (h : toastInv st) : toastInv (showToast ty msg st) := by
  have htm := showToast_timers ty msg st h
  obtain ⟨hpos, _⟩ := h
  refine ⟨?_, ?_⟩
  · rw [showToast_nextTimerId]; omega
  · rw [showToast_toast]
    refine ⟨?_, st.now + toastDelayMs, htm⟩
    show st.nextTimerId ≠ 0
    omega

/-- A pending timer fires: the toast is dismissed and the queue emptied. -/
theorem fireTimer_of_pending (tid ft : Nat) (st : PageState)
    (htm : st.timers = [⟨tid, ft⟩]) :
    fireTimer tid st = { st with toast := none, timers := [] } := by
  simp [fireTimer, htm]

/-- Firing an id that is not pending is a no-op. -/
theorem fireTimer_of_not_pending (tid : Nat) (st : PageState)
    (h : ∀ tm ∈ st.timers, tm.id ≠ tid) : fireTimer tid st = st := by
  have hc : (st.timers.any fun tm => tm.id = tid) = false := by
    simp only [List.any_eq_false, decide_eq_true_eq]
    exact h
  simp [fireTimer, hc]

/-- A timer firing preserves the pending-timer discipline. -/
theorem toastInv_fireTimer (tid : Nat) (st : PageState) (h : toastInv st) :
    toastInv (fireTimer tid st) := by
  obtain ⟨hpos, hrest⟩ := h
  cases hts : st.toast with
  | none =>
      have htm : st.timers = [] := by rw [hts] at hrest; exact hrest
      have hnm : ∀ tm ∈ st.timers, tm.id ≠ tid := by rw [htm]; simp
      rw [fireTimer_of_not_pending tid st hnm]
      exact ⟨hpos, hrest⟩
  | some prev =>
      have hrest2 : prev.timerId ≠ 0 ∧ ∃ ft, st.timers = [⟨prev.timerId, ft⟩] := by
        rw [hts] at hrest; exact hrest
      obtain ⟨hne, ft, htm⟩ := hrest2
      by_cases hid : prev.timerId = tid
      · subst hid
        rw [fireTimer_of_pending prev.timerId ft st htm]
        exact ⟨hpos, rfl⟩
      · have hnm : ∀ tm ∈ st.timers, tm.id ≠ tid := by
          rw [htm]; simpa using hid
        rw [fireTimer_of_not_pending tid st hnm]
        exact ⟨hpos, hrest⟩

/-- Cleanup when a toast (with its live timer) is visible. -/
theorem toastCleanup_of_some (st : PageState) (prev : Toast) (ft : Nat)
    (hts : st.toast = some prev) (hne : prev.timerId ≠ 0)
    (htm : st.timers = [⟨prev.timerId, ft⟩]) :
    toastCleanup st = { st with toast := none, timers := [] } := by
  simp [toastCleanup, hts, hne, htm]

/-- Cleanup when no toast is visible. -/
theorem toastCleanup_of_none (st : PageState) (hts : st.toast = none) :
    toastCleanup st = { st with toast := none } := by
  simp [toastCleanup, hts]

/-- Under the invariant, the unmount cleanup clears the toast and every
pending timer. -/
theorem toastCleanup_spec (st : PageState) (h : toastInv st) :
    (toastCleanup st).toast = none ∧ (toastCleanup st).timers = [] ∧
      toastInv (toastCleanup st) := by
  obtain ⟨hpos, hrest⟩ := h
  cases hts : st.toast with
  | none =>
      have htm : st.timers = [] := by rw [hts] at hrest; exact hrest
      rw [toastCleanup_of_none st hts]
      exact ⟨rfl, htm, hpos, htm⟩
  | some prev =>
      have hrest2 : prev.timerId ≠ 0 ∧ ∃ ft, st.timers = [⟨prev.timerId, ft⟩] := by
        rw [hts] at hrest; exact hrest
      obtain ⟨hne, ft, htm⟩ := hrest2
      rw [toastCleanup_of_some st prev ft hts hne htm]
      exact ⟨rfl, rfl, hpos, rfl⟩

/-! ### Whitespace lemmas for the empty-term case -/

/-- ASCII lower-casing fixes every whitespace character. -/
theorem toLower_of_whitespace (c : Char) (h : c.isWhitespace = true) :
    c.toLower = c := by
  have h2 : c = ' ' ∨ c = '\t' ∨ c = '\x0d' ∨ c = '\n' := by
    simpa [Char.isWhitespace, Bool.or_eq_true, decide_eq_true_eq, or_assoc] using h
  rcases h2 with h2 | h2 | h2 | h2 <;> subst h2 <;> decide

/-- Trimming a list of whitespace characters yields the empty list. -/
theorem trimChars_eq_nil (l : List Char) (h : ∀ c ∈ l, c.isWhitespace = true) :
    trimChars l = [] := by
  unfold trimChars
  have h1 : l.dropWhile Char.isWhitespace = [] :=
    List.dropWhile_eq_nil_iff.mpr h
  rw [h1]
  rfl

/-- A whitespace-only search term lower-cases and trims to the empty
string. -/
theorem jsTrim_jsToLower_eq_empty (t : String)
    (h : ∀ c ∈ t.data, c.isWhitespace = true) : jsTrim (jsToLower t) = "" := by
  apply String.ext
  show trimChars (jsToLower t).data = ("" : String).data
  have hmap : ∀ c ∈ (jsToLower t).data, c.isWhitespace = true := by
    intro c hc
    simp only [jsToLower] at hc
    obtain ⟨c0, hc0, hlc⟩ := List.mem_map.mp hc
    have hw := h c0 hc0
    rw [← hlc, toLower_of_whitespace c0 hw]
    exact hw
  rw [trimChars_eq_nil _ hmap]

/-! ### Claim theorems -/

/-- Claim C1: for every list of student records and every search term,
`filteredStudents` is a pure function returning an order-preserving
sublist of the input (`List.Sublist`), and a record belongs to the
output iff the lower-cased, trimmed term is a substring of its
lower-cased name or of its lower-cased enrollment number, a missing
field being treated as the empty string.  The embedded filter is total
over all record shapes (optional fields), so it never throws. -/
theorem C1_filter_sublist_and_match (l : List Student) (t : String) :
    (filteredStudents l t).Sublist l ∧
    ∀ s, s ∈ filteredStudents l t ↔
      s ∈ l ∧
        ((jsTrim (jsToLower t)).data <:+: (jsToLower (s.full_name.getD "")).data ∨
         (jsTrim (jsToLower t)).data <:+: (jsToLower (s.enrollment_no.getD "")).data) := by
  by_cases h : jsTrim (jsToLower t) = ""
  · have hnil : (jsTrim (jsToLower t)).data = [] := by rw [h]
    constructor
    · simp [filteredStudents, h]
    · intro s
      simp [filteredStudents, h, hnil, List.nil_infix]
  · constructor
    · simp only [filteredStudents, if_neg h]
      exact List.filter_sublist l
    · intro s
      simp only [filteredStudents, if_neg h, List.mem_filter, studentMatches,
        jsIncludes, Bool.or_eq_true, decide_eq_true_eq]

/-- Claim C6: a search term that is empty or consists only of whitespace
makes the filter return the full cached list unchanged. -/
theorem C6_whitespace_term_identity (l : List Student) (t : String)
    (h : ∀ c ∈ t.data, c.isWhitespace = true) : filteredStudents l t = l := by
  have he : jsTrim (jsToLower t) = "" := jsTrim_jsToLower_eq_empty t h
  simp [filteredStudents, he]

/-- Witness for C6 at the whitespace-only term `"  \t"` and the demo
list. -/
theorem C6_witness :
    (∀ c ∈ ("  \t" : String).data, c.isWhitespace = true) ∧
      filteredStudents demoList "  \t" = demoList :=
  ⟨by decide, C6_whitespace_term_identity demoList "  \t" (by decide)⟩

/-- Claim C9: the filter is idempotent — filtering its own output with
the same term returns that output unchanged. -/
theorem C9_filter_idempotent (l : List Student) (t : String) :
    filteredStudents (filteredStudents l t) t = filteredStudents l t := by
  by_cases h : jsTrim (jsToLower t) = ""
  · simp [filteredStudents, h]
  · simp only [filteredStudents, if_neg h]
    rw [List.filter_filter]
    simp

/-- Claim C8: `getTrustColor` maps every integer score to exactly one of
four tiers: `score ≥ 10` the highest tier (green), `5 ≤ score < 10` the
mid tier (blue), `0 ≤ score < 5` the low tier (yellow), `score < 0`
flagged (red). -/
theorem C8_getTrustColor_tiers (score : Int) :
    (getTrustColor score = "#22c55e" ↔ 10 ≤ score) ∧
    (getTrustColor score = "#3b82f6" ↔ 5 ≤ score ∧ score < 10) ∧
    (getTrustColor score = "#eab308" ↔ 0 ≤ score ∧ score < 5) ∧
    (getTrustColor score = "#ef4444" ↔ score < 0) := by
  unfold getTrustColor
  split_ifs with h1 h2 h3 <;> simp <;> omega

/-- Claim C10: a record with a missing trust/credit score renders the
badge value `0` with the low-tier (yellow) color, and the warning icon
is shown exactly when the score is present and strictly negative — a
missing score never triggers the flagged presentation. -/
theorem C10_missing_score_badge :
    badgeScoreValue none = 0 ∧
    badgeColor none = "#eab308" ∧
    badgeShowsWarning none = false ∧
    ∀ v : Int, badgeShowsWarning (some v) = true ↔ v < 0 := by
  refine ⟨rfl, by decide, rfl, ?_⟩
  intro v
  simp [badgeShowsWarning]

/-- Claim C2: for every prior cached list, a `refresh()` (that is,
`loadStudents`) whose network fetch fails leaves the cached student
list exactly as it was, emits an error notification (appended to the
log and stored as the visible toast), and clears the loading flag; the
loading flag is also cleared on the success path. -/
theorem C2_refresh_failure_preserves_list (st : PageState) :
    (loadStudents (.error ()) st).1.students = st.students ∧
    (loadStudents (.error ()) st).1.loading = false ∧
    (loadStudents (.error ()) st).1.toastLog
      = st.toastLog ++ [(ToastType.error, "Failed to connect to database")] ∧
    (loadStudents (.error ()) st).1.toast
      = some ⟨ToastType.error, "Failed to connect to database", st.nextTimerId⟩ ∧
    ∀ data, (loadStudents (.ok data) st).1.loading = false := by
  refine ⟨?_, rfl, ?_, ?_, fun data => rfl⟩
  · simp [loadStudents, loadStudentsK, showToast_students]
  · simp [loadStudents, loadStudentsK, showToast_toastLog]
  · simp [loadStudents, loadStudentsK, showToast_toast]

/-- Claim C3, counterexample: the manual refresh (`loadStudents`)
consults no liveness flag, so its continuation mutates the state even
when the component is already torn down (`isMounted = false`): from the
mount state, a stale successful response still replaces the student
list. -/
theorem C3_counterexample :
    loadStudentsK false (.ok [ravi]) initState ≠ initState := by
  intro h
  have h2 := congrArg PageState.students h
  simp [loadStudentsK, initState] at h2

/-- Claim C3 as amended: only the initial load is teardown-safe — its
continuation, with the liveness flag captured before the async call
reading `false`, performs no state update at all. -/
theorem C3_initialLoad_unmounted_no_update (outcome : Except Unit (List Student))
    (st : PageState) : initialLoadK false outcome st = st := by
  cases outcome <;> rfl

/-- Claim C4: under the pending-timer discipline (`toastInv`, which in
particular says at most one dismissal timer is pending and the toast is
a single `Option`al value), every `showToast`, timer firing and unmount
cleanup preserves it; the cleanup leaves no toast and no pending timer;
and two shows in quick succession leave exactly the second notification
visible with exactly one pending timer (the second's). -/
theorem C4_toast_discipline (st : PageState) (h : toastInv st)
    (ty ty1 ty2 : ToastType) (m m1 m2 : String) (tid : Nat) :
    toastInv (showToast ty m st) ∧
    toastInv (fireTimer tid st) ∧
    (toastCleanup st).toast = none ∧
    (toastCleanup st).timers = [] ∧
    (showToast ty2 m2 (showToast ty1 m1 st)).toast
      = some ⟨ty2, m2, st.nextTimerId + 1⟩ ∧
    (showToast ty2 m2 (showToast ty1 m1 st)).timers
      = [⟨st.nextTimerId + 1, st.now + toastDelayMs⟩] := by
  have h1 := toastInv_showToast ty1 m1 st h
  refine ⟨toastInv_showToast ty m st h, toastInv_fireTimer tid st h,
    (toastCleanup_spec st h).1, (toastCleanup_spec st h).2.1, ?_, ?_⟩
  · rw [showToast_toast, showToast_nextTimerId]
  · rw [showToast_timers ty2 m2 _ h1, showToast_nextTimerId, showToast_now]

/-- Witness for C4 at the mount state. -/
theorem C4_witness :
    toastInv initState ∧
      (showToast ToastType.error "m2" (showToast ToastType.error "m1" initState)).toast
        = some ⟨ToastType.error, "m2", 2⟩ := by
  have hinv : toastInv initState := ⟨Nat.one_pos, rfl⟩
  exact ⟨hinv,
    (C4_toast_discipline initState hinv .success .error .error "x" "m1" "m2" 0).2.2.2.2.1⟩

/-- Claim C5: `handleRequest(id, action)` posts the action to the
backend (the post is the first issued call); on success it emits a
success notification and triggers exactly one subsequent `refresh()`
(one `GET /users/all`), with the final list coming from that refresh
rather than a local optimistic patch; on failure it emits an error
notification and triggers no refresh. -/
theorem C5_handleRequest_spec (id : Nat) (action : String) (st : PageState) :
    (∀ po ro, ((handleRequest id action po ro st).2).head?
        = some (ApiCall.post ("/users/" ++ toString id ++ "/manage-hostel") action)) ∧
    (∀ ro, ((handleRequest id action (.ok ()) ro st).2).count
        (ApiCall.get "/users/all") = 1) ∧
    (∀ ro, (ToastType.success, "Request " ++ action ++ "ed successfully")
        ∈ (handleRequest id action (.ok ()) ro st).1.toastLog) ∧
    (∀ data, (handleRequest id action (.ok ()) (.ok data) st).1.students = data) ∧
    (handleRequest id action (.ok ()) (.error ()) st).1.students = st.students ∧
    (∀ ro, ((handleRequest id action (.error ()) ro st).2).count
        (ApiCall.get "/users/all") = 0) ∧
    (∀ ro, (handleRequest id action (.error ()) ro st).1.toast
        = some ⟨ToastType.error, "Action failed", st.nextTimerId⟩) := by
  refine ⟨?_, ?_, ?_, ?_, ?_, ?_, ?_⟩
  · intro po ro
    cases po <;> simp [handleRequest, loadStudents]
  · intro ro
    simp [handleRequest, loadStudents]
  · intro ro
    cases ro <;>
      simp [handleRequest, loadStudents, loadStudentsK, showToast_toastLog]
  · intro data
    simp [handleRequest, loadStudents, loadStudentsK]
  · simp [handleRequest, loadStudents, loadStudentsK, showToast_students]
  · intro ro
    simp [handleRequest]
  · intro ro
    simp [handleRequest, showToast_toast]

/-- Claim C7: `showToast` schedules auto-dismissal after exactly 3 time
units of 1000 ms (`setTimeout(..., 3000)`): under the timer discipline,
the sole pending timer after a show fires at `now + 3 * 1000`, and its
firing steps the notification state machine from Visible back to Idle
(toast cleared, no timer pending). -/
theorem C7_auto_dismiss (st : PageState) (h : toastInv st)
    (ty : ToastType) (m : String) :
    toastDelayMs = 3 * 1000 ∧
    (showToast ty m st).timers = [⟨st.nextTimerId, st.now + 3 * 1000⟩] ∧
    (showToast ty m st).toast = some ⟨ty, m, st.nextTimerId⟩ ∧
    (fireTimer st.nextTimerId (showToast ty m st)).toast = none ∧
    (fireTimer st.nextTimerId (showToast ty m st)).timers = [] := by
  have htm := showToast_timers ty m st h
  have hfire := fireTimer_of_pending st.nextTimerId (st.now + toastDelayMs)
      (showToast ty m st) htm
  refine ⟨rfl, ?_, showToast_toast ty m st, ?_, ?_⟩
  · simpa [toastDelayMs] using htm
  · rw [hfire]
  · rw [hfire]

/-- Witness for C7 at the mount state. -/
theorem C7_witness :
    toastInv initState ∧
      (fireTimer initState.nextTimerId
        (showToast ToastType.error "oops" initState)).toast = none := by
  have hinv : toastInv initState := ⟨Nat.one_pos, rfl⟩
  exact ⟨hinv, (C7_auto_dismiss initState hinv .error "oops").2.2.2.1⟩

end CampusFix
